import Mathlib

/-!
Verification development for the retail analytics core of the
`retail-react-agent` repository.

The Python source (src/data_ci_market_share.py, src/data_panel_penetration.py,
src/tools.py) is shallow-embedded below:

* numpy's globally seeded pseudo-random stream is modelled by an entropy
  function `g : ℕ → ℕ → ℚ`: after `np.random.seed(s)` the k-th sample drawn
  from the generator is a fixed function of `(s, k)` only.  A standard-normal
  draw at position k is `g s k` (so `np.random.normal(0, σ)` is `σ * g s k`),
  and `np.random.rand()` at position k is likewise `g s k`.  The global RNG
  state is a pair `(seed, position)`; each generator receives the incoming
  global state and begins by reseeding, exactly as `np.random.seed(seed)` does.
* Python floats are modelled as exact rationals ℚ; `round(x, n)` is
  round-half-to-even at n decimals (`roundHalfEven`), the tie rule Python uses.
* Python dicts built by comprehension with possible key collisions are
  modelled as association lists with last-occurrence-wins lookup
  (`dictGetLast`), matching dict insertion/overwrite semantics.
* Python's substring test `needle in hay` is `substrB`.
* Operations that would raise (IndexError from `seq[-1]` / `seq[0]` on an
  empty sequence) or silently produce an IEEE non-finite value (numpy float
  division by zero) return `Option`-values, `none` marking the raised /
  non-finite outcome.
-/

namespace RetailAgent

/-- Round half to even (Python's `round` tie rule) on exact rationals. -/
def roundHalfEven (x : ℚ) : ℤ :=
  let n := Int.floor x
  let frac := x - n
  if frac < 1/2 then n
  else if 1/2 < frac then n + 1
  else if Even n then n else n + 1

/-- Python `round(x, 1)` on the exact-rational model. -/
def pyRound1 (x : ℚ) : ℚ := (roundHalfEven (10 * x) : ℚ) / 10

/-- Python `round(x, 2)` on the exact-rational model. -/
def pyRound2 (x : ℚ) : ℚ := (roundHalfEven (100 * x) : ℚ) / 100

/-- Lookup in a Python dict materialised as an association list: the value of
the LAST matching key wins (dict comprehensions overwrite on key collision),
with default `d` (`dict.get(key, d)`). -/
def dictGetLast {α : Type} : List (String × α) → String → α → α
  | [], _, d => d
  | (k, v) :: rest, key, d => dictGetLast rest key (if k = key then v else d)

/-- `%Y-%m` month label of month number `idx` (0-based) after the month
`startM` of year `startY`; `pd.date_range(start, periods, freq='M')` emits
month-end timestamps whose `%Y-%m` labels advance one calendar month per
index. -/
def monthStr (startY startM idx : ℕ) : String :=
  let t := startM - 1 + idx
  let m := t % 12 + 1
  toString (startY + t / 12) ++ "-" ++ (if m < 10 then "0" ++ toString m else toString m)

/-- The enumerated month labels `list(enumerate(months))`. -/
def monthIdxStrs (startY startM periods : ℕ) : List (ℕ × String) :=
  (List.range periods).map (fun i => (i, monthStr startY startM i))

/-- Default Mondelez brand vocabulary (title case, as in the generators). -/
def defaultBrands : List String := ["Oreo", "ChipsAhoy", "Ritz", "belVita", "NutterButter"]

/-- Default region vocabulary. -/
def defaultRegions : List String := ["Northeast", "Southeast", "Midwest", "West", "Southwest"]

/-- Default age-group vocabulary. -/
def defaultAgeGroups : List String := ["18-24", "25-34", "35-44", "45-54", "55+"]

/-- `base_values` of data_ci_market_share.py. -/
def msBaseValues : List (String × ℚ) :=
  [("Oreo", 24), ("ChipsAhoy", 37/2), ("Ritz", 16), ("belVita", 25/2), ("NutterButter", 10)]

/-- `trends` of data_ci_market_share.py. -/
def msTrends : List (String × ℚ) :=
  [("Oreo", 2/5), ("ChipsAhoy", 1/5), ("Ritz", 1/4), ("belVita", 9/20), ("NutterButter", 1/10)]

/-- `region_multipliers = {region: 1.0 + (i - len(regions)/2)*0.05 for i, region
in enumerate(regions)}` (both generators build the same dict). -/
def regionMultipliers (regions : List String) : List (String × ℚ) :=
  regions.enum.map (fun p => (p.2, 1 + ((p.1 : ℚ) - (regions.length : ℚ)/2) * (1/20)))

/-- One row of the market-share dataset. -/
structure MSRow where
  Month : String
  Brand : String
  Region : String
  MarketShare : ℚ
  Price : ℚ
  OnPromotion : ℕ
  deriving DecidableEq, Repr

/-- Inner region loop of `generate_market_share_data`: one row per region,
consuming three draws of the seeded stream per row (share noise, price noise,
promotion uniform), threading the stream position `k`. -/
def msRegionLoop (stream : ℕ → ℚ) (mults : List (String × ℚ)) (month brand : String)
    (base trend : ℚ) (midx : ℕ) (premium : ℚ) :
    List String → ℕ → List MSRow × ℕ
  | [], k => ([], k)
  | region :: rest, k =>
    let multiplier := dictGetLast mults region 1
    let share := (base + (midx : ℚ) * trend) * multiplier + 3/10 * stream k
    let price := 399/100 + premium + 1/10 * stream (k + 1)
    let promo : ℕ := if stream (k + 2) < 3/10 then 1 else 0
    let next := msRegionLoop stream mults month brand base trend midx premium rest (k + 3)
    (⟨month, brand, region, pyRound1 (max share (1/10)), pyRound2 price, promo⟩ :: next.1,
     next.2)

/-- Brand loop of `generate_market_share_data`; `allBrands` is the full brand
list (the premium test is `brand in brands[:2]`). -/
def msBrandLoop (stream : ℕ → ℚ) (mults : List (String × ℚ)) (month : String) (midx : ℕ)
    (allBrands regions : List String) :
    List String → ℕ → List MSRow × ℕ
  | [], k => ([], k)
  | brand :: rest, k =>
    let base := dictGetLast msBaseValues brand 10
    let trend := dictGetLast msTrends brand (1/10)
    let premium : ℚ := if brand ∈ allBrands.take 2 then 1/2 else 0
    let r1 := msRegionLoop stream mults month brand base trend midx premium regions k
    let r2 := msBrandLoop stream mults month midx allBrands regions rest r1.2
    (r1.1 ++ r2.1, r2.2)

/-- Month loop of `generate_market_share_data`. -/
def msMonthLoop (stream : ℕ → ℚ) (mults : List (String × ℚ)) (brands regions : List String) :
    List (ℕ × String) → ℕ → List MSRow × ℕ
  | [], k => ([], k)
  | (midx, mstr) :: rest, k =>
    let r1 := msBrandLoop stream mults mstr midx brands regions brands k
    let r2 := msMonthLoop stream mults brands regions rest r1.2
    (r1.1 ++ r2.1, r2.2)

/-- `generate_market_share_data` (data_ci_market_share.py).  `g` is the master
entropy of the numpy PRNG, `rng0` the incoming global RNG state; the function
begins with `np.random.seed(seed)`, which discards `rng0` and restarts the
stream at `(seed, 0)`.  Returns the row list together with the final global
RNG state. -/
def generate_market_share_data (g : ℕ → ℕ → ℚ) (startY startM periods : ℕ)
    (brands regions : List String) (seed : ℕ) (rng0 : ℕ × ℕ) : List MSRow × (ℕ × ℕ) :=
  let _ := rng0
  let stream := g seed
  let mults := regionMultipliers regions
  let r := msMonthLoop stream mults brands regions (monthIdxStrs startY startM periods) 0
  (r.1, (seed, r.2))

/-- `base_values` of data_panel_penetration.py. -/
def penBaseValues : List (String × ℚ) :=
  [("Oreo", 12), ("ChipsAhoy", 19/2), ("Ritz", 10), ("belVita", 7), ("NutterButter", 6)]

/-- `age_multipliers` of data_panel_penetration.py, verbatim — note the
`"ChipsAhay"` key in the `"45-54"` row. -/
def ageMultipliers : List (String × List (String × ℚ)) :=
  [("18-24", [("Oreo", 13/10), ("ChipsAhoy", 6/5), ("Ritz", 9/10), ("belVita", 4/5), ("NutterButter", 9/10)]),
   ("25-34", [("Oreo", 6/5), ("ChipsAhoy", 11/10), ("Ritz", 1), ("belVita", 6/5), ("NutterButter", 9/10)]),
   ("35-44", [("Oreo", 11/10), ("ChipsAhoy", 1), ("Ritz", 11/10), ("belVita", 13/10), ("NutterButter", 1)]),
   ("45-54", [("Oreo", 9/10), ("ChipsAhay", 9/10), ("Ritz", 6/5), ("belVita", 11/10), ("NutterButter", 11/10)]),
   ("55+", [("Oreo", 4/5), ("ChipsAhoy", 4/5), ("Ritz", 11/10), ("belVita", 9/10), ("NutterButter", 6/5)])]

/-- `age_multipliers.get(age_group, {}).get(brand, 1.0)`. -/
def ageMultLookup (age brand : String) : ℚ :=
  dictGetLast (dictGetLast ageMultipliers age []) brand 1

/-- One row of the penetration dataset. -/
structure PenRow where
  Month : String
  Brand : String
  AgeGroup : String
  Region : String
  Penetration : ℚ
  PurchaseFrequency : ℚ
  LoyaltyScore : ℚ
  deriving DecidableEq, Repr

/-- Innermost region loop of `generate_penetration_data`: three draws per row
(penetration noise, purchase-frequency noise, loyalty noise). -/
def penRegionLoop (stream : ℕ → ℚ) (mults : List (String × ℚ)) (month brand age : String)
    (base btrend ageMult : ℚ) (midx : ℕ) (isFirst : Bool) :
    List String → ℕ → List PenRow × ℕ
  | [], k => ([], k)
  | region :: rest, k =>
    let regionMult := dictGetLast mults region 1
    let penetration := (base + (midx : ℚ) * btrend) * ageMult * regionMult + 1/5 * stream k
    let purchFreq := 2 + (if isFirst then 1/2 else 0) + 1/5 * stream (k + 1)
    let loyalty := 65 + (if isFirst then 10 else 0) + 3 * stream (k + 2)
    let next := penRegionLoop stream mults month brand age base btrend ageMult midx isFirst rest (k + 3)
    (⟨month, brand, age, region, pyRound1 (max penetration (1/10)), pyRound1 purchFreq,
      pyRound1 loyalty⟩ :: next.1,
     next.2)

/-- Age-group loop of `generate_penetration_data`. -/
def penAgeLoop (stream : ℕ → ℚ) (mults : List (String × ℚ)) (month brand : String)
    (base btrend : ℚ) (midx : ℕ) (isFirst : Bool) (regions : List String) :
    List String → ℕ → List PenRow × ℕ
  | [], k => ([], k)
  | age :: rest, k =>
    let ageMult := ageMultLookup age brand
    let r1 := penRegionLoop stream mults month brand age base btrend ageMult midx isFirst regions k
    let r2 := penAgeLoop stream mults month brand base btrend midx isFirst regions rest r1.2
    (r1.1 ++ r2.1, r2.2)

/-- Brand loop of `generate_penetration_data`; `brands[0]` (the head of the
full brand list) gets the faster trend and the frequency/loyalty boost. -/
def penBrandLoop (stream : ℕ → ℚ) (mults : List (String × ℚ)) (month : String) (midx : ℕ)
    (allBrands ageGroups regions : List String) :
    List String → ℕ → List PenRow × ℕ
  | [], k => ([], k)
  | brand :: rest, k =>
    let base := dictGetLast penBaseValues brand 5
    let isFirst := allBrands.head? = some brand
    let btrend : ℚ := if isFirst then 3/10 else 1/10
    let r1 := penAgeLoop stream mults month brand base btrend midx isFirst regions ageGroups k
    let r2 := penBrandLoop stream mults month midx allBrands ageGroups regions rest r1.2
    (r1.1 ++ r2.1, r2.2)

/-- Month loop of `generate_penetration_data`. -/
def penMonthLoop (stream : ℕ → ℚ) (mults : List (String × ℚ))
    (brands ageGroups regions : List String) :
    List (ℕ × String) → ℕ → List PenRow × ℕ
  | [], k => ([], k)
  | (midx, mstr) :: rest, k =>
    let r1 := penBrandLoop stream mults mstr midx brands ageGroups regions brands k
    let r2 := penMonthLoop stream mults brands ageGroups regions rest r1.2
    (r1.1 ++ r2.1, r2.2)

/-- `generate_penetration_data` (data_panel_penetration.py).  The `regionsArg`
parameter is unconditionally overwritten with the fixed five-region list
(line 29 of the source) before any use. -/
def generate_penetration_data (g : ℕ → ℕ → ℚ) (startY startM periods : ℕ)
    (brands ageGroups regionsArg : List String) (seed : ℕ) (rng0 : ℕ × ℕ) :
    List PenRow × (ℕ × ℕ) :=
  let _ := rng0
  let _ := regionsArg
  let regions := defaultRegions
  let stream := g seed
  let mults := regionMultipliers regions
  let r := penMonthLoop stream mults brands ageGroups regions (monthIdxStrs startY startM periods) 0
  (r.1, (seed, r.2))

/-- Byte-wise prefix test on character lists. -/
def listPrefixB : List Char → List Char → Bool
  | [], _ => true
  | _ :: _, [] => false
  | a :: as, b :: bs => a == b && listPrefixB as bs

/-- Contiguous-sublist test on character lists. -/
def listSubstrB : List Char → List Char → Bool
  | n, [] => n.isEmpty
  | n, c :: t => listPrefixB n (c :: t) || listSubstrB n t

/-- Python's substring containment `needle in hay`. -/
def substrB (needle hay : String) : Bool := listSubstrB needle.data hay.data

/-- Python `str.lower()` / pandas `.str.lower()` (ASCII case folding),
written directly over the character list so it reduces in the kernel. -/
def strLower (s : String) : String := String.mk (s.data.map Char.toLower)

/-- The lowercase brand vocabulary of the extractors (tools.py). -/
def brandVocab : List String := ["oreo", "chipsahoy", "ritz", "belvita", "nutterbutter"]

/-- The lowercase region vocabulary of the extractors (tools.py). -/
def regionVocab : List String := ["northeast", "southeast", "midwest", "west", "southwest"]

/-- `_extract_brand`: first vocabulary brand occurring as a substring of the
case-folded query, defaulting to "oreo".  (MarketShareTool lowercases the
query in `_run` before calling; ComparisonTool lowercases inside the scan —
end-to-end both match against the lowercased query.) -/
def extract_brand (query : String) : String :=
  (brandVocab.find? (fun b => substrB b (strLower query))).getD "oreo"

/-- `_extract_region`: first vocabulary region occurring as a substring of the
case-folded query, capitalized; `None` when none occurs. -/
def extract_region (query : String) : Option String :=
  (regionVocab.find? (fun r => substrB r (strLower query))).map String.capitalize

/-- The age-group vocabulary line of `PenetrationTool._extract_age_group`
and `ComparisonTool._extract_age_group` (src/tools.py lines 100 and 197),
byte for byte.  Its final element is the malformed `"55+""]`: after the
closed literal `"55+"` a lone double-quote opens a string that the line
never closes. -/
def toolsAgeGroupsLine : String :=
  "        age_groups = [\"18-24\", \"25-34\", \"35-44\", \"45-54\", \"55+\"\"]"

/-- A minimal model of CPython's tokenizer for a single physical line that
uses only plain double-quoted string literals without escape sequences or
any other quote form — exactly the shape of `toolsAgeGroupsLine`.  The Bool
argument records whether the scan is inside an open string literal; each
double quote toggles it, every other character leaves it unchanged.  A line
whose scan ends inside a string is an unterminated string literal, which
CPython reports as a SyntaxError, so the enclosing module never parses. -/
def scanQuotes : List Char → Bool → Bool
  | [], inStr => inStr
  | c :: rest, inStr => scanQuotes rest (if c = '"' then !inStr else inStr)

/-- The line, scanned from outside any string, ends inside an open string
literal: a SyntaxError. -/
def pyLineUnterminated (line : String) : Bool := scanQuotes line.data false

/-- `CompetitorAnalysisTool._extract_brands`: all matching vocabulary brands
in vocabulary order, defaulting to the whole vocabulary when none matches. -/
def extract_brands (query : String) : List String :=
  let bs := brandVocab.filter (fun b => substrB b (strLower query))
  if bs.isEmpty then brandVocab else bs

/-- `ForecastingTool._extract_forecast_horizon`: 3 unless the word "month"
occurs in the case-folded query, in which case the first of 1,…,12 whose
decimal string occurs as a substring wins (still 3 when none does). -/
def extract_forecast_horizon (query : String) : ℕ :=
  let q := strLower query
  if substrB "month" q then ((List.range' 1 12).find? (fun i => substrB (toString i) q)).getD 3
  else 3

/-- Brand filter of the tools: `df[df['Brand'].str.lower() == brand]`. -/
def filterBrandMS (df : List MSRow) (brand : String) : List MSRow :=
  df.filter (fun r => strLower r.Brand = brand)

/-- Group a (Month, value) table by month and take the mean per month
(`groupby('Month')['col'].mean()`); the generated tables list months in
chronological order, so key order is immaterial here and first-appearance
order is used. -/
def groupMonthMean (pairs : List (String × ℚ)) : List (String × ℚ) :=
  ((pairs.map Prod.fst).dedup).map (fun m =>
    let vals := (pairs.filter (fun p => p.1 = m)).map Prod.snd
    (m, vals.sum / (vals.length : ℚ)))

/-- `ComparisonTool._get_trend`: reads `series.iloc[-1]` and `series.iloc[0]`
with no emptiness check; on an empty series `iloc` raises IndexError, which
the embedding reports as `none`. -/
def get_trend (series : List ℚ) : Option String :=
  match series.getLast?, series.head? with
  | some last, some first =>
    if first < last then
      some ("Increasing over the period (" ++ toString first ++ "% to " ++ toString last ++ "%)")
    else
      some ("Decreasing over the period (" ++ toString first ++ "% to " ++ toString last ++ "%)")
  | _, _ => none

/-- Division as numpy float64 performs it: a zero denominator silently
produces a non-finite value (±inf or nan) instead of raising; `none` marks
that non-finite outcome. -/
def npDiv (a b : ℚ) : Option ℚ := if b = 0 then none else some (a / b)

/-- The month-over-month percentage-change comprehension of
`ComparisonTool._calculate_growth_rates`:
`(xs[i] - xs[i-1]) / xs[i-1] * 100` for i = 1…len-1, with numpy's silent
non-finite result (`none`) whenever the denominator `xs[i-1]` is zero.
No guard, raise, or "undefined growth rate" report exists in the source. -/
def pct_changes : List ℚ → List (Option ℚ)
  | a :: b :: rest =>
    ((npDiv (b - a) a).map (fun q => q * 100)) :: pct_changes (b :: rest)
  | _ => []

/-- Start/end summary line of `CompetitorAnalysisTool._analyze_market_shares`
for one brand's monthly aggregate: skipped (empty string) when the aggregate
has no rows; the percentage change is guarded by `if start_share > 0 else 0`. -/
def analyze_brand_line (brand : String) (agg : List (String × ℚ)) : String :=
  match agg.head?, agg.getLast? with
  | some first, some last =>
    let startShare := first.2
    let endShare := last.2
    let change := endShare - startShare
    let changePct : ℚ := if 0 < startShare then change / startShare * 100 else 0
    "- " ++ brand.capitalize ++ ": Started at " ++ toString startShare ++
      "%, ended at " ++ toString endShare ++ "% (" ++
      (if 0 ≤ change then "+" else "") ++ toString change ++ " points, " ++
      (if 0 ≤ changePct then "+" else "") ++ toString changePct ++ "%)\n"
  | _, _ => ""

/-- `CompetitorAnalysisTool._analyze_market_shares`: per-brand start/end-change
lines over the month-mean aggregate of the brand's filtered rows. -/
def analyze_market_shares (df : List MSRow) (brands : List String) : String :=
  (brands.map (fun b =>
    analyze_brand_line b (groupMonthMean ((filterBrandMS df b).map (fun r => (r.Month, r.MarketShare)))))).foldl
    (· ++ ·) ""

/-- `avg_change` of the fallback branch: the mean of the consecutive
differences `values[i] - values[i-1]` over the whole series. -/
def avgDiff (values : List ℚ) : ℚ :=
  let diffs := (values.zip values.tail).map (fun p => p.2 - p.1)
  diffs.sum / (diffs.length : ℚ)

/-- Fallback branch of `ForecastingTool._generate_forecast`: it begins with
`last_value = values[-1]`, which raises IndexError (`none`) on an empty
series; with ≥ 2 points it projects `last + avg_change * (i+1)` for
i = 0…horizon-1 where `avg_change` is the mean of consecutive differences;
with exactly one point it repeats that point `horizon` times. -/
def fallback_forecast (values : List ℚ) (horizon : ℕ) : Option (List ℚ) :=
  match values.getLast? with
  | none => none
  | some last =>
    if 2 ≤ values.length then
      some ((List.range horizon).map (fun (i : ℕ) => last + avgDiff values * ((i : ℚ) + 1)))
    else
      some (List.replicate horizon last)

/-- `ForecastingTool._generate_forecast`: `arima` models the result of
`ARIMA(values, order=(1,1,0)).fit().forecast(steps=horizon)` — `some f` when
the statsmodels call succeeds with forecast `f`, `none` when it raises and the
`except` branch runs the fallback. -/
def generate_forecast (arima : Option (List ℚ)) (values : List ℚ) (horizon : ℕ) :
    Option (List ℚ) :=
  match arima with
  | some f => some f
  | none => fallback_forecast values horizon

/-! ### Helper lemmas -/

theorem roundHalfEven_ge_floor (x : ℚ) : Int.floor x ≤ roundHalfEven x := by
  simp only [roundHalfEven]
  split_ifs <;> omega

theorem pyRound1_max_ge (x : ℚ) : 1/10 ≤ pyRound1 (max x (1/10)) := by
  have h1 : (1 : ℚ) ≤ 10 * max x (1/10) := by
    have := le_max_right x (1/10)
    linarith
  have h2 : (1 : ℤ) ≤ Int.floor (10 * max x (1/10)) := by
    rw [Int.le_floor]; exact_mod_cast h1
  have h3 : (1 : ℤ) ≤ roundHalfEven (10 * max x (1/10)) :=
    le_trans h2 (roundHalfEven_ge_floor _)
  have h4 : (1 : ℚ) ≤ (roundHalfEven (10 * max x (1/10)) : ℚ) := by exact_mod_cast h3
  simp only [pyRound1]
  linarith

theorem dictGetLast_not_mem {α : Type} :
    ∀ (l : List (String × α)) (k : String) (d : α),
      k ∉ l.map Prod.fst → dictGetLast l k d = d
  | [], _, _, _ => rfl
  | (pk, pv) :: rest, k, d, h => by
    have h1 : pk ≠ k := by
      intro he; exact h (by simp [he])
    have h2 : k ∉ rest.map Prod.fst := by
      intro hm; exact h (by simp [hm])
    rw [dictGetLast, if_neg h1]
    exact dictGetLast_not_mem rest k d h2

theorem dictGetLast_mem_nodup {α : Type} :
    ∀ (l : List (String × α)) (k : String) (v : α) (d : α),
      (l.map Prod.fst).Nodup → (k, v) ∈ l → dictGetLast l k d = v
  | [], _, _, _, _, hm => absurd hm (List.not_mem_nil _)
  | (pk, pv) :: rest, k, v, d, hnd, hm => by
    rw [List.map_cons, List.nodup_cons] at hnd
    obtain ⟨hpk, hnd2⟩ := hnd
    rcases List.mem_cons.mp hm with heq | hmem
    · obtain ⟨hk, hv⟩ := Prod.mk.injEq .. ▸ heq
      subst hk; subst hv
      rw [dictGetLast, if_pos rfl]
      exact dictGetLast_not_mem rest k v hpk
    · have hk2 : k ∈ rest.map Prod.fst := List.mem_map_of_mem Prod.fst hmem
      have hne : pk ≠ k := fun he => hpk (he ▸ hk2)
      rw [dictGetLast, if_neg hne]
      exact dictGetLast_mem_nodup rest k v d hnd2 hmem

theorem find_first {α : Type} (p : α → Bool) :
    ∀ (l : List α) (i : ℕ) (hi : i < l.length),
      p (l.get ⟨i, hi⟩) = true →
      (∀ j (hj : j < i), p (l.get ⟨j, Nat.lt_trans hj hi⟩) = false) →
      l.find? p = some (l.get ⟨i, hi⟩)
  | [], i, hi, _, _ => absurd hi (Nat.not_lt_zero i)
  | a :: t, 0, _, hp, _ => by
    simp only [List.get] at hp ⊢
    rw [List.find?_cons_of_pos _ hp]
  | a :: t, i + 1, hi, hp, hbef => by
    have ha : p a = false := hbef 0 (Nat.succ_pos i)
    simp only [List.get] at hp ⊢
    rw [List.find?_cons_of_neg _ (by simp [ha])]
    exact find_first p t i (Nat.lt_of_succ_lt_succ hi) hp
      (fun j hj => hbef (j + 1) (Nat.succ_lt_succ hj))

theorem pct_changes_eq_zip :
    ∀ xs : List ℚ,
      pct_changes xs =
        (xs.zip xs.tail).map (fun p => (npDiv (p.2 - p.1) p.1).map (fun q => q * 100))
  | [] => rfl
  | [_] => rfl
  | a :: b :: rest => by
    rw [pct_changes, pct_changes_eq_zip (b :: rest)]
    rfl

theorem pct_changes_length (xs : List ℚ) :
    (pct_changes xs).length = xs.length - 1 := by
  rw [pct_changes_eq_zip, List.length_map, List.length_zip, List.length_tail]
  omega

theorem pct_changes_all_defined :
    ∀ xs : List ℚ, (∀ x ∈ xs, 1/10 ≤ x) →
      (pct_changes xs).all (fun o => o.isSome) = true
  | [], _ => rfl
  | [_], _ => rfl
  | a :: b :: rest, hpos => by
    have ha : (1:ℚ)/10 ≤ a := hpos a (by simp)
    have hane : a ≠ 0 := by intro h; rw [h] at ha; linarith
    have htail : ∀ x ∈ b :: rest, (1:ℚ)/10 ≤ x := fun x hx => hpos x (List.mem_cons_of_mem a hx)
    rw [pct_changes, List.all_cons, Bool.and_eq_true]
    exact ⟨by simp [npDiv, hane], pct_changes_all_defined (b :: rest) htail⟩

/-! ### C1 — growth-rate computation -/

/-- C1 counterexample: on the series `[0, 1]` the growth-rate comprehension of
`ComparisonTool._calculate_growth_rates` divides by the zero denominator and
silently yields numpy's non-finite value (modelled `none`), which the caller
formats straight into the report; it neither raises nor reports an
"undefined growth rate" condition, so the claim as stated is false at this
input. -/
theorem C1_counterexample : pct_changes [0, 1] = [none] := rfl

/-- C1 (amended): the growth-rate computation produces one entry per adjacent
pair of the series (the pairwise formula `(next - prev)/prev * 100`, with a
silent non-finite value when `prev = 0`), yielding `length - 1` entries; and
for series whose values are all ≥ 0.1 — as every aggregated series actually
passed to it is, by the generators' floor invariant — every growth rate is a
well-defined finite number. -/
theorem C1_growth_rates (xs : List ℚ) :
    pct_changes xs =
      (xs.zip xs.tail).map (fun p => (npDiv (p.2 - p.1) p.1).map (fun q => q * 100))
    ∧ (pct_changes xs).length = xs.length - 1
    ∧ ((∀ x ∈ xs, 1/10 ≤ x) → (pct_changes xs).all (fun o => o.isSome) = true) :=
  ⟨pct_changes_eq_zip xs, pct_changes_length xs, pct_changes_all_defined xs⟩

/-- C1 witness: the amended theorem at the concrete series `[1/2, 1]`. -/
theorem C1_witness : (pct_changes [1/2, 1]).all (fun o => o.isSome) = true :=
  (C1_growth_rates [1/2, 1]).2.2 (by
    intro x hx
    rcases List.mem_cons.mp hx with rfl | hx2
    · norm_num
    · rcases List.mem_singleton.mp hx2 with rfl; norm_num)

/-! ### C2 — empty aggregates from unrecognized brands -/

theorem foldl_append_all_empty (f : String → String) :
    ∀ (l : List String) (acc : String), (∀ x ∈ l, f x = "") →
      (l.map f).foldl (· ++ ·) acc = acc
  | [], _, _ => rfl
  | a :: t, acc, h => by
    rw [List.map_cons, List.foldl_cons, h a (by simp), String.append_empty]
    exact foldl_append_all_empty f t acc (fun x hx => h x (List.mem_cons_of_mem a hx))

/-- C2 counterexample: `ComparisonTool._get_trend` applied to the empty
aggregate indexes `iloc[-1]` / `iloc[0]` of an empty series and raises
IndexError (modelled `none`); it reports no "no data" outcome, so the claim
that every analytics operation applied to an empty aggregate reports "no
data" rather than indexing into an empty sequence is false at this input. -/
theorem C2_counterexample : get_trend [] = none := rfl

/-- C2 (amended): filtering by a brand absent from the dataset returns zero
rows; the competitor start/end-change analysis handles the resulting empty
aggregate by emitting nothing (its zero-denominator percentage is also
guarded), and the growth-rate computation of an empty series is empty; but
trend determination (`_get_trend`) does not report "no data" — it raises an
indexing error on the empty series (see the counterexample) and only returns
a trend description on nonempty series.  (In actual runs `_get_trend` is
reached only with nonempty aggregates, because brand extraction always
returns a vocabulary brand.) -/
theorem C2_empty_handling (df : List MSRow) (b : String) (brands : List String)
    (s : List ℚ) :
    ((∀ r ∈ df, strLower r.Brand ≠ b) → filterBrandMS df b = [])
    ∧ ((∀ bb ∈ brands, ∀ r ∈ df, strLower r.Brand ≠ bb) → analyze_market_shares df brands = "")
    ∧ pct_changes [] = []
    ∧ (s ≠ [] → (get_trend s).isSome = true) := by
  have hfil : ∀ bb : String, (∀ r ∈ df, strLower r.Brand ≠ bb) → filterBrandMS df bb = [] := by
    intro bb hbb
    rw [filterBrandMS, List.filter_eq_nil_iff]
    intro r hr
    simp [hbb r hr]
  refine ⟨hfil b, ?_, rfl, ?_⟩
  · intro hall
    rw [analyze_market_shares]
    apply foldl_append_all_empty
    intro bb hbb
    rw [hfil bb (hall bb hbb)]
    rfl
  · intro hs
    obtain ⟨a, t, rfl⟩ := List.exists_cons_of_ne_nil hs
    cases hgl : (a :: t).getLast? with
    | none =>
      have : (a :: t).getLast?.isSome = true := List.getLast?_isSome.mpr (by simp)
      rw [hgl] at this
      exact absurd this (by simp)
    | some last =>
      simp only [get_trend, hgl, List.head?_cons]
      split <;> rfl

/-- C2 witness: the amended theorem at a concrete one-row dataset and the
unknown brand "pepsi", plus a concrete nonempty series. -/
theorem C2_witness :
    filterBrandMS [⟨"2025-01", "Oreo", "Northeast", 21, 449/100, 1⟩] "pepsi" = []
    ∧ (get_trend [(5 : ℚ)]).isSome = true := by
  have h := C2_empty_handling [⟨"2025-01", "Oreo", "Northeast", 21, 449/100, 1⟩]
    "pepsi" ["pepsi"] [(5 : ℚ)]
  refine ⟨h.1 ?_, h.2.2.2 (by simp)⟩
  intro r hr
  rcases List.mem_singleton.mp hr with rfl
  decide

/-! ### C3 — forecast generation and fallback -/

/-- C3 counterexample: on the empty series the claim demands `horizon`
repetitions of "the last (or only) value", but the fallback's first statement
`last_value = values[-1]` raises IndexError inside the `except` handler
(modelled `none`): no forecast points are returned at all. -/
theorem C3_counterexample : generate_forecast none [] 1 = none := rfl

/-- C3 (amended): for every nonempty input series (last element `last`) and
every horizon: when the primary ARIMA fit raises and the series has ≥ 2
points, the result is the linear extrapolation `last + avg_change * i`,
i = 1…horizon, with `avg_change` the mean of consecutive differences over the
whole series; when the series has exactly one point the result is `horizon`
repetitions of that point; every forecast returned on the fallback path has
exactly `horizon` points; and when the primary fit succeeds its forecast is
returned unchanged (statsmodels' `forecast(steps=horizon)` yields `horizon`
points, so the output again has exactly `horizon` points). -/
theorem C3_forecast (values : List ℚ) (horizon : ℕ) (last : ℚ)
    (h : values.getLast? = some last) :
    (2 ≤ values.length →
      generate_forecast none values horizon =
        some ((List.range horizon).map (fun (i : ℕ) => last + avgDiff values * ((i : ℚ) + 1))))
    ∧ (values.length < 2 →
      generate_forecast none values horizon = some (List.replicate horizon last))
    ∧ (∀ res, generate_forecast none values horizon = some res → res.length = horizon)
    ∧ (∀ f, generate_forecast (some f) values horizon = some f) := by
  have hgen : generate_forecast none values horizon = fallback_forecast values horizon := rfl
  refine ⟨?_, ?_, ?_, fun f => rfl⟩
  · intro h2
    rw [hgen]
    simp only [fallback_forecast, h]
    rw [if_pos h2]
  · intro h2
    rw [hgen]
    simp only [fallback_forecast, h]
    rw [if_neg (by omega)]
  · intro res hres
    rw [hgen] at hres
    simp only [fallback_forecast, h] at hres
    by_cases h2 : 2 ≤ values.length
    · rw [if_pos h2] at hres
      obtain rfl := (Option.some_inj.mp hres).symm
      rw [List.length_map, List.length_range]
    · rw [if_neg h2] at hres
      obtain rfl := (Option.some_inj.mp hres).symm
      rw [List.length_replicate]

/-- C3 witness: the amended theorem at the concrete series `[1, 2]` with
horizon 3 and a failing primary fit: the fallback projects `[3, 4, 5]`. -/
theorem C3_witness : generate_forecast none [(1 : ℚ), 2] 3 = some [3, 4, 5] := by
  have h := (C3_forecast [(1 : ℚ), 2] 3 2 rfl).1 (by simp)
  rw [h]
  simp [avgDiff, List.range_succ]
  norm_num

/-! ### C4 — the penetration generator ignores its `regions` parameter -/

/-- C4: `generate_penetration_data` unconditionally overwrites its `regions`
parameter with the fixed five-region list before any use, so any two values
of that argument (all other arguments equal) produce identical datasets. -/
theorem C4_regions_ignored (g : ℕ → ℕ → ℚ) (startY startM periods : ℕ)
    (brands ageGroups r1 r2 : List String) (seed : ℕ) (rng0 : ℕ × ℕ) :
    generate_penetration_data g startY startM periods brands ageGroups r1 seed rng0 =
      generate_penetration_data g startY startM periods brands ageGroups r2 seed rng0 := rfl

/-! ### C5 — determinism of both generators -/

/-- C5: both generators reseed the pseudo-random stream from their `seed`
argument before sampling, so the produced dataset is a function of the
declared arguments only — whatever global RNG state (`s0` vs `s1`) each call
starts from, the row lists are identical, row for row and value for value. -/
theorem C5_determinism (g : ℕ → ℕ → ℚ) (startY startM periods : ℕ)
    (brands regions ageGroups : List String) (seed : ℕ) (s0 s1 : ℕ × ℕ) :
    (generate_market_share_data g startY startM periods brands regions seed s0).1 =
      (generate_market_share_data g startY startM periods brands regions seed s1).1
    ∧ (generate_penetration_data g startY startM periods brands ageGroups regions seed s0).1 =
      (generate_penetration_data g startY startM periods brands ageGroups regions seed s1).1 :=
  ⟨rfl, rfl⟩

/-! ### C6 — the 0.1 floor invariant -/

theorem msRegionLoop_floor (stream : ℕ → ℚ) (mults : List (String × ℚ)) (month brand : String)
    (base trend : ℚ) (midx : ℕ) (premium : ℚ) :
    ∀ (regions : List String) (k : ℕ) (r : MSRow),
      r ∈ (msRegionLoop stream mults month brand base trend midx premium regions k).1 →
      1/10 ≤ r.MarketShare
  | [], _, _, h => absurd h (List.not_mem_nil _)
  | region :: rest, k, r, h => by
    simp only [msRegionLoop, List.mem_cons] at h
    rcases h with rfl | h
    · exact pyRound1_max_ge _
    · exact msRegionLoop_floor stream mults month brand base trend midx premium rest (k + 3) r h

theorem msBrandLoop_floor (stream : ℕ → ℚ) (mults : List (String × ℚ)) (month : String)
    (midx : ℕ) (allBrands regions : List String) :
    ∀ (brands : List String) (k : ℕ) (r : MSRow),
      r ∈ (msBrandLoop stream mults month midx allBrands regions brands k).1 →
      1/10 ≤ r.MarketShare
  | [], _, _, h => absurd h (List.not_mem_nil _)
  | brand :: rest, k, r, h => by
    simp only [msBrandLoop, List.mem_append] at h
    rcases h with h | h
    · exact msRegionLoop_floor stream mults month brand _ _ midx _ regions k r h
    · exact msBrandLoop_floor stream mults month midx allBrands regions rest _ r h

theorem msMonthLoop_floor (stream : ℕ → ℚ) (mults : List (String × ℚ))
    (brands regions : List String) :
    ∀ (months : List (ℕ × String)) (k : ℕ) (r : MSRow),
      r ∈ (msMonthLoop stream mults brands regions months k).1 →
      1/10 ≤ r.MarketShare
  | [], _, _, h => absurd h (List.not_mem_nil _)
  | (midx, mstr) :: rest, k, r, h => by
    simp only [msMonthLoop, List.mem_append] at h
    rcases h with h | h
    · exact msBrandLoop_floor stream mults mstr midx brands regions brands k r h
    · exact msMonthLoop_floor stream mults brands regions rest _ r h

theorem penRegionLoop_floor (stream : ℕ → ℚ) (mults : List (String × ℚ))
    (month brand age : String) (base btrend ageMult : ℚ) (midx : ℕ) (isFirst : Bool) :
    ∀ (regions : List String) (k : ℕ) (r : PenRow),
      r ∈ (penRegionLoop stream mults month brand age base btrend ageMult midx isFirst regions k).1 →
      1/10 ≤ r.Penetration
  | [], _, _, h => absurd h (List.not_mem_nil _)
  | region :: rest, k, r, h => by
    simp only [penRegionLoop, List.mem_cons] at h
    rcases h with rfl | h
    · exact pyRound1_max_ge _
    · exact penRegionLoop_floor stream mults month brand age base btrend ageMult midx isFirst
        rest (k + 3) r h

theorem penAgeLoop_floor (stream : ℕ → ℚ) (mults : List (String × ℚ)) (month brand : String)
    (base btrend : ℚ) (midx : ℕ) (isFirst : Bool) (regions : List String) :
    ∀ (ageGroups : List String) (k : ℕ) (r : PenRow),
      r ∈ (penAgeLoop stream mults month brand base btrend midx isFirst regions ageGroups k).1 →
      1/10 ≤ r.Penetration
  | [], _, _, h => absurd h (List.not_mem_nil _)
  | age :: rest, k, r, h => by
    simp only [penAgeLoop, List.mem_append] at h
    rcases h with h | h
    · exact penRegionLoop_floor stream mults month brand age base btrend _ midx isFirst regions k r h
    · exact penAgeLoop_floor stream mults month brand base btrend midx isFirst regions rest _ r h

theorem penBrandLoop_floor (stream : ℕ → ℚ) (mults : List (String × ℚ)) (month : String)
    (midx : ℕ) (allBrands ageGroups regions : List String) :
    ∀ (brands : List String) (k : ℕ) (r : PenRow),
      r ∈ (penBrandLoop stream mults month midx allBrands ageGroups regions brands k).1 →
      1/10 ≤ r.Penetration
  | [], _, _, h => absurd h (List.not_mem_nil _)
  | brand :: rest, k, r, h => by
    simp only [penBrandLoop, List.mem_append] at h
    rcases h with h | h
    · exact penAgeLoop_floor stream mults month brand _ _ midx _ regions ageGroups k r h
    · exact penBrandLoop_floor stream mults month midx allBrands ageGroups regions rest _ r h

theorem penMonthLoop_floor (stream : ℕ → ℚ) (mults : List (String × ℚ))
    (brands ageGroups regions : List String) :
    ∀ (months : List (ℕ × String)) (k : ℕ) (r : PenRow),
      r ∈ (penMonthLoop stream mults brands ageGroups regions months k).1 →
      1/10 ≤ r.Penetration
  | [], _, _, h => absurd h (List.not_mem_nil _)
  | (midx, mstr) :: rest, k, r, h => by
    simp only [penMonthLoop, List.mem_append] at h
    rcases h with h | h
    · exact penBrandLoop_floor stream mults mstr midx brands ageGroups regions brands k r h
    · exact penMonthLoop_floor stream mults brands ageGroups regions rest _ r h

/-- C6: every MarketShare value produced by `generate_market_share_data` and
every Penetration value produced by `generate_penetration_data` is ≥ 0.1, for
all generation arguments and for EVERY entropy function `g` — i.e. regardless
of the magnitude of the injected Gaussian noise — because `max(·, 0.1)` is
applied before the final one-decimal rounding. -/
theorem C6_floor (g : ℕ → ℕ → ℚ) (startY startM periods : ℕ)
    (brands regions ageGroups : List String) (seed : ℕ) (rng0 : ℕ × ℕ) :
    (∀ r ∈ (generate_market_share_data g startY startM periods brands regions seed rng0).1,
      1/10 ≤ r.MarketShare)
    ∧ (∀ r ∈ (generate_penetration_data g startY startM periods brands ageGroups regions seed rng0).1,
      1/10 ≤ r.Penetration) := by
  constructor
  · intro r hr
    exact msMonthLoop_floor (g seed) (regionMultipliers regions) brands regions
      (monthIdxStrs startY startM periods) 0 r hr
  · intro r hr
    exact penMonthLoop_floor (g seed) (regionMultipliers defaultRegions) brands ageGroups
      defaultRegions (monthIdxStrs startY startM periods) 0 r hr

/-- C6 witness: the floor theorem applied to concrete rows of concrete
single-brand datasets generated with zero noise. -/
theorem C6_witness :
    (⟨"2025-01", "Oreo", "Northeast", 117/5, 449/100, 1⟩ : MSRow) ∈
      (generate_market_share_data (fun _ _ => 0) 2025 1 1 ["Oreo"] ["Northeast"] 42 (0, 0)).1
    ∧ 1/10 ≤ (⟨"2025-01", "Oreo", "Northeast", 117/5, 449/100, 1⟩ : MSRow).MarketShare
    ∧ (⟨"2025-01", "Oreo", "18-24", "Northeast", 68/5, 5/2, 75⟩ : PenRow) ∈
      (generate_penetration_data (fun _ _ => 0) 2025 1 1 ["Oreo"] ["18-24"] [] 43 (0, 0)).1
    ∧ 1/10 ≤ (⟨"2025-01", "Oreo", "18-24", "Northeast", 68/5, 5/2, 75⟩ : PenRow).Penetration := by
  have hms : (generate_market_share_data (fun _ _ => 0) 2025 1 1 ["Oreo"] ["Northeast"] 42 (0, 0)).1
      = [⟨"2025-01", "Oreo", "Northeast", 117/5, 449/100, 1⟩] := by
    norm_num +decide [generate_market_share_data, msMonthLoop, msBrandLoop, msRegionLoop,
      monthIdxStrs, List.range_succ, monthStr, regionMultipliers, dictGetLast, msBaseValues,
      msTrends, pyRound1, pyRound2, roundHalfEven, max_def, Int.even_iff]
  have hmem1 : (⟨"2025-01", "Oreo", "Northeast", 117/5, 449/100, 1⟩ : MSRow) ∈
      (generate_market_share_data (fun _ _ => 0) 2025 1 1 ["Oreo"] ["Northeast"] 42 (0, 0)).1 := by
    rw [hms]; exact List.mem_singleton_self _
  have hpenh : (generate_penetration_data (fun _ _ => 0) 2025 1 1 ["Oreo"] ["18-24"] [] 43 (0, 0)).1.head?
      = some ⟨"2025-01", "Oreo", "18-24", "Northeast", 68/5, 5/2, 75⟩ := by
    norm_num +decide [generate_penetration_data, penMonthLoop, penBrandLoop, penAgeLoop,
      penRegionLoop, monthIdxStrs, List.range_succ, monthStr, regionMultipliers, defaultRegions,
      dictGetLast, penBaseValues, ageMultLookup, ageMultipliers, pyRound1, roundHalfEven,
      max_def, Int.even_iff]
  have hmem2 : (⟨"2025-01", "Oreo", "18-24", "Northeast", 68/5, 5/2, 75⟩ : PenRow) ∈
      (generate_penetration_data (fun _ _ => 0) 2025 1 1 ["Oreo"] ["18-24"] [] 43 (0, 0)).1 := by
    apply List.mem_of_mem_head?
    rw [hpenh]; rfl
  refine ⟨hmem1, ?_, hmem2, ?_⟩
  · exact (C6_floor (fun _ _ => 0) 2025 1 1 ["Oreo"] ["Northeast"] ["18-24"] 42 (0, 0)).1 _ hmem1
  · exact (C6_floor (fun _ _ => 0) 2025 1 1 ["Oreo"] ["Northeast"] ["18-24"] 43 (0, 0)).2 _
      (by exact hmem2)

/-! ### C7 — region multipliers and the first generated row -/

theorem regionMultipliers_keys (regions : List String) :
    (regionMultipliers regions).map Prod.fst = regions := by
  rw [regionMultipliers, List.map_map]
  have : (Prod.fst ∘ fun p : ℕ × String =>
      (p.2, 1 + ((p.1 : ℚ) - (regions.length : ℚ)/2) * (1/20))) = Prod.snd := rfl
  rw [this, List.enum_map_snd]

theorem regionMultipliers_get (regions : List String) (hnd : regions.Nodup)
    (i : Fin regions.length) :
    dictGetLast (regionMultipliers regions) (regions.get i) 1
      = 1 + (((i : ℕ) : ℚ) - (regions.length : ℚ)/2) * (1/20) := by
  apply dictGetLast_mem_nodup
  · rw [regionMultipliers_keys]; exact hnd
  · rw [regionMultipliers]
    apply List.mem_map.mpr
    refine ⟨((i : ℕ), regions.get i), ?_, rfl⟩
    rw [List.mk_mem_enum_iff_getElem?]
    simp [List.getElem?_eq_getElem i.isLt]

theorem msRegionLoop_head (stream : ℕ → ℚ) (mults : List (String × ℚ)) (month brand : String)
    (base trend : ℚ) (midx : ℕ) (premium : ℚ) (region : String) (rest : List String) (k : ℕ) :
    (msRegionLoop stream mults month brand base trend midx premium (region :: rest) k).1.head?
      = some ⟨month, brand, region,
          pyRound1 (max ((base + (midx : ℚ) * trend) * dictGetLast mults region 1
            + 3/10 * stream k) (1/10)),
          pyRound2 (399/100 + premium + 1/10 * stream (k + 1)),
          if stream (k + 2) < 3/10 then 1 else 0⟩ := by
  simp [msRegionLoop]

theorem msBrandLoop_head (stream : ℕ → ℚ) (mults : List (String × ℚ)) (month : String)
    (midx : ℕ) (allBrands : List String) (region : String) (rrest : List String)
    (brand : String) (brest : List String) (k : ℕ) :
    (msBrandLoop stream mults month midx allBrands (region :: rrest) (brand :: brest) k).1.head?
      = (msRegionLoop stream mults month brand (dictGetLast msBaseValues brand 10)
          (dictGetLast msTrends brand (1/10)) midx
          (if brand ∈ allBrands.take 2 then 1/2 else 0) (region :: rrest) k).1.head? := by
  simp only [msBrandLoop, List.head?_append, msRegionLoop_head, Option.or_some]

theorem msMonthLoop_head (stream : ℕ → ℚ) (mults : List (String × ℚ))
    (brand : String) (brest : List String) (region : String) (rrest : List String)
    (midx : ℕ) (mstr : String) (mrest : List (ℕ × String)) (k : ℕ) :
    (msMonthLoop stream mults (brand :: brest) (region :: rrest) ((midx, mstr) :: mrest) k).1.head?
      = (msBrandLoop stream mults mstr midx (brand :: brest) (region :: rrest)
          (brand :: brest) k).1.head? := by
  simp only [msMonthLoop, List.head?_append]
  rw [msBrandLoop_head, msRegionLoop_head, Option.or_some]

/-- C7: the region multiplier assigned to each region of a duplicate-free
region list equals `1 + (index - count/2) * 0.05` and is strictly increasing
in the region's list position; for index 0 of the 5 default regions it is
0.875 = 7/8, and the first row generated with default arguments and zero
noise is (Month "2025-01", Brand "Oreo", Region "Northeast") with pre-noise
MarketShare 24.0 × 0.875 = 21.0. -/
theorem C7_region_multipliers :
    (∀ (regions : List String), regions.Nodup →
      ∀ i : Fin regions.length,
        dictGetLast (regionMultipliers regions) (regions.get i) 1
          = 1 + (((i : ℕ) : ℚ) - (regions.length : ℚ)/2) * (1/20))
    ∧ (∀ (regions : List String), regions.Nodup →
      ∀ i j : Fin regions.length, i < j →
        dictGetLast (regionMultipliers regions) (regions.get i) 1
          < dictGetLast (regionMultipliers regions) (regions.get j) 1)
    ∧ dictGetLast (regionMultipliers defaultRegions) "Northeast" 1 = 7/8
    ∧ ((generate_market_share_data (fun _ _ => 0) 2025 1 7 defaultBrands defaultRegions
          42 (0, 0)).1.head?).map (fun r => (r.Month, r.Brand, r.Region, r.MarketShare))
        = some ("2025-01", "Oreo", "Northeast", 21) := by
  have hmono : ∀ (regions : List String), regions.Nodup →
      ∀ i j : Fin regions.length, i < j →
        dictGetLast (regionMultipliers regions) (regions.get i) 1
          < dictGetLast (regionMultipliers regions) (regions.get j) 1 := by
    intro regions hnd i j hij
    rw [regionMultipliers_get regions hnd i, regionMultipliers_get regions hnd j]
    have : (((i : ℕ) : ℚ)) < (((j : ℕ) : ℚ)) := by exact_mod_cast hij
    linarith
  have hne : dictGetLast (regionMultipliers defaultRegions) "Northeast" 1 = 7/8 := by
    have h0 := regionMultipliers_get defaultRegions (by decide) ⟨0, by decide⟩
    have : defaultRegions.get ⟨0, by decide⟩ = "Northeast" := rfl
    rw [this] at h0
    rw [h0]
    norm_num [defaultRegions]
  refine ⟨fun regions hnd i => regionMultipliers_get regions hnd i, hmono, hne, ?_⟩
  have hrange : monthIdxStrs 2025 1 7
      = (0, monthStr 2025 1 0) :: ((List.range 6).map Nat.succ).map
          (fun i => (i, monthStr 2025 1 i)) := by
    rw [monthIdxStrs, List.range_succ_eq_map, List.map_cons, List.map_map]
  have hm0 : monthStr 2025 1 0 = "2025-01" := by decide
  rw [generate_market_share_data]
  show ((msMonthLoop ((fun _ _ => (0:ℚ)) 42) (regionMultipliers defaultRegions) defaultBrands
      defaultRegions (monthIdxStrs 2025 1 7) 0).1.head?).map
      (fun r => (r.Month, r.Brand, r.Region, r.MarketShare)) = _
  rw [hrange, hm0]
  rw [show defaultBrands = "Oreo" :: ["ChipsAhoy", "Ritz", "belVita", "NutterButter"] from rfl]
  rw [show defaultRegions = "Northeast" :: ["Southeast", "Midwest", "West", "Southwest"] from rfl]
  rw [msMonthLoop_head, msBrandLoop_head, msRegionLoop_head]
  have harg : (dictGetLast msBaseValues "Oreo" 10 + ((0:ℕ) : ℚ) * dictGetLast msTrends "Oreo" (1/10))
      * dictGetLast (regionMultipliers ("Northeast" :: ["Southeast", "Midwest", "West", "Southwest"]))
        "Northeast" 1 + 3/10 * (fun _ _ => (0:ℚ)) 42 0 = 21 := by
    have : dictGetLast (regionMultipliers ("Northeast" :: ["Southeast", "Midwest", "West", "Southwest"]))
        "Northeast" 1 = 7/8 := hne
    rw [this]
    norm_num +decide [msBaseValues, msTrends, dictGetLast]
  rw [harg]
  have h21 : pyRound1 (max (21 : ℚ) (1/10)) = 21 := by
    norm_num [pyRound1, roundHalfEven, max_def]
  rw [h21]
  rfl

/-- C7 witness: the multiplier theorem applied to the default region list at
positions 0 and 1. -/
theorem C7_witness :
    dictGetLast (regionMultipliers defaultRegions) (defaultRegions.get ⟨0, by decide⟩) 1
      = 1 + (((0 : ℕ) : ℚ) - ((defaultRegions.length : ℚ))/2) * (1/20)
    ∧ dictGetLast (regionMultipliers defaultRegions) (defaultRegions.get ⟨0, by decide⟩) 1
      < dictGetLast (regionMultipliers defaultRegions) (defaultRegions.get ⟨1, by decide⟩) 1 := by
  constructor
  · exact C7_region_multipliers.1 defaultRegions (by decide) ⟨0, by decide⟩
  · exact C7_region_multipliers.2.1 defaultRegions (by decide) ⟨0, by decide⟩ ⟨1, by decide⟩
      (by decide)

/-! ### C8 — the extractor module does not parse -/

theorem scanQuotes_eq_parity :
    ∀ (cs : List Char) (b : Bool), scanQuotes cs b = (b ^^ (cs.count '"' % 2 == 1))
  | [], b => by simp [scanQuotes]
  | c :: rest, b => by
    rw [scanQuotes, scanQuotes_eq_parity rest]
    by_cases hc : c = '"'
    · subst hc
      have hcount : (('"' :: rest).count '"') = rest.count '"' + 1 := by
        simp [List.count_cons]
      rw [if_pos rfl, hcount]
      rcases Nat.mod_two_eq_zero_or_one (rest.count '"') with h | h <;>
        simp [Nat.add_mod, h]
    · have hcount : ((c :: rest).count '"') = rest.count '"' := by
        simp [List.count_cons, beq_iff_eq, Ne.symm hc]
      rw [if_neg hc, hcount]

/-- C8: the never-fails extraction guarantee cannot be exhibited by the
source, because the module defining the extractors does not parse.  The
age-group vocabulary line shared by `PenetrationTool._extract_age_group` and
`ComparisonTool._extract_age_group` (src/tools.py lines 100 and 197) carries
an odd number of double quotes — its tail opens a string literal after the
closed `"55+"` that the line never terminates — so the scan of the line ends
inside an open string: CPython raises `SyntaxError: unterminated string
literal (detected at line 100)` while compiling the module, and no
extraction (age-group, brand, region or otherwise) ever runs. -/
theorem C8_code_bug :
    pyLineUnterminated toolsAgeGroupsLine = true
    ∧ toolsAgeGroupsLine.data.count '"' % 2 = 1 := by
  constructor
  · decide
  · decide

/-! ### C9 — forecast-horizon extraction -/

/-- C9: the extracted horizon is 3 whenever the word "month" does not occur
in the case-folded query; when it does occur, the horizon is the first
integer of 1, 2, …, 12 (in that scan order) whose decimal string occurs as a
substring of the query, and 3 when none of them occurs. -/
theorem C9_horizon (q : String) :
    (substrB "month" (strLower q) = false → extract_forecast_horizon q = 3)
    ∧ (substrB "month" (strLower q) = true →
        (∀ i ∈ List.range' 1 12, substrB (toString i) (strLower q) = false) →
        extract_forecast_horizon q = 3)
    ∧ (∀ i : Fin (List.range' 1 12).length,
        substrB "month" (strLower q) = true →
        substrB (toString ((List.range' 1 12).get i)) (strLower q) = true →
        (∀ j : Fin (List.range' 1 12).length, (j : ℕ) < (i : ℕ) →
          substrB (toString ((List.range' 1 12).get j)) (strLower q) = false) →
        extract_forecast_horizon q = (List.range' 1 12).get i) := by
  refine ⟨?_, ?_, ?_⟩
  · intro h
    rw [extract_forecast_horizon]
    simp only [h, Bool.false_eq_true, if_false]
  · intro h hnone
    rw [extract_forecast_horizon]
    simp only [h, if_true]
    rw [List.find?_eq_none.mpr (fun x hx => by simp [hnone x hx])]
    rfl
  · intro i h hp hbef
    have hf := find_first (fun n => substrB (toString n) (strLower q)) (List.range' 1 12)
      (i : ℕ) i.isLt hp (fun j hj => hbef ⟨j, Nat.lt_trans hj i.isLt⟩ hj)
    rw [extract_forecast_horizon]
    simp only [h, if_true]
    rw [hf]
    rfl

/-- C9 witness: "forecast 12 months" resolves to horizon 1 (the substring
"1" wins before "12" in scan order), and a query without "month" gets the
default 3. -/
theorem C9_witness :
    extract_forecast_horizon "forecast 12 months" = 1
    ∧ extract_forecast_horizon "forecast belvita" = 3 := by
  constructor
  · exact (C9_horizon "forecast 12 months").2.2 ⟨0, by decide⟩ (by decide) (by decide) (by decide)
  · exact (C9_horizon "forecast belvita").1 (by decide)

/-! ### C10 — the "ChipsAhay" misspelling in the age-multiplier table -/

/-- C10: the `age_multipliers` row for "45-54" has no key "ChipsAhoy" (its
key there is the misspelling "ChipsAhay"), so the lookup for
("ChipsAhoy", "45-54") yields the generic fallback multiplier 1.0; every
other (brand, age-group) pair of the default vocabularies has a table entry,
and each lookup returns exactly its hand-set constant. -/
theorem C10_age_table :
    ageMultLookup "45-54" "ChipsAhoy" = 1
    ∧ "ChipsAhoy" ∉ (dictGetLast ageMultipliers "45-54" []).map Prod.fst
    ∧ "ChipsAhay" ∈ (dictGetLast ageMultipliers "45-54" []).map Prod.fst
    ∧ (∀ a ∈ defaultAgeGroups, ∀ b ∈ defaultBrands, ¬(a = "45-54" ∧ b = "ChipsAhoy") →
        b ∈ (dictGetLast ageMultipliers a []).map Prod.fst)
    ∧ ageMultLookup "18-24" "Oreo" = 13/10
    ∧ ageMultLookup "18-24" "ChipsAhoy" = 6/5
    ∧ ageMultLookup "18-24" "Ritz" = 9/10
    ∧ ageMultLookup "18-24" "belVita" = 4/5
    ∧ ageMultLookup "18-24" "NutterButter" = 9/10
    ∧ ageMultLookup "25-34" "Oreo" = 6/5
    ∧ ageMultLookup "25-34" "ChipsAhoy" = 11/10
    ∧ ageMultLookup "25-34" "Ritz" = 1
    ∧ ageMultLookup "25-34" "belVita" = 6/5
    ∧ ageMultLookup "25-34" "NutterButter" = 9/10
    ∧ ageMultLookup "35-44" "Oreo" = 11/10
    ∧ ageMultLookup "35-44" "ChipsAhoy" = 1
    ∧ ageMultLookup "35-44" "Ritz" = 11/10
    ∧ ageMultLookup "35-44" "belVita" = 13/10
    ∧ ageMultLookup "35-44" "NutterButter" = 1
    ∧ ageMultLookup "45-54" "Oreo" = 9/10
    ∧ ageMultLookup "45-54" "Ritz" = 6/5
    ∧ ageMultLookup "45-54" "belVita" = 11/10
    ∧ ageMultLookup "45-54" "NutterButter" = 11/10
    ∧ ageMultLookup "55+" "Oreo" = 4/5
    ∧ ageMultLookup "55+" "ChipsAhoy" = 4/5
    ∧ ageMultLookup "55+" "Ritz" = 11/10
    ∧ ageMultLookup "55+" "belVita" = 9/10
    ∧ ageMultLookup "55+" "NutterButter" = 6/5 :=
  ⟨rfl, by decide, by decide, by decide,
   rfl, rfl, rfl, rfl, rfl, rfl, rfl, rfl, rfl, rfl, rfl, rfl, rfl, rfl, rfl,
   rfl, rfl, rfl, rfl, rfl, rfl, rfl, rfl, rfl⟩

/-- C10 witness: the every-other-pair-has-an-entry clause applied at
("18-24", "Oreo"). -/
theorem C10_witness :
    "Oreo" ∈ (dictGetLast ageMultipliers "18-24" []).map Prod.fst :=
  C10_age_table.2.2.2.1 "18-24" (by decide) "Oreo" (by decide) (by simp)

end RetailAgent
